import Mathlib

/-!
Verification of the agent-driven browser control loop of
`src/browser_agent_mcp_server.py` (the only component of the repository with
real state-machine behaviour, per the design spec).

The Python source is shallowly embedded: the key-name translator, the
Playwright driver wrapper (`AsyncPlaywrightBrowser`) with its page-lifecycle
callbacks, and the agent loop (`run_browser_task`) become executable Lean
functions.  The remote planning service (OpenAI Responses API) is modelled as
an oracle `Nat → GwResponse` giving the response to the n-th gateway call.
-/

namespace BrowserAgent

/-! ## Action Translator (`CUA_KEY_TO_PLAYWRIGHT_KEY`, lines 21-27) -/

/-- The literal key mapping `CUA_KEY_TO_PLAYWRIGHT_KEY` from the source,
as an association list in source order. -/
def CUA_KEY_TO_PLAYWRIGHT_KEY : List (String × String) :=
  [("enter", "Enter"), ("tab", "Tab"), ("space", " "), ("backspace", "Backspace"),
   ("delete", "Delete"), ("esc", "Escape"), ("arrowup", "ArrowUp"), ("arrowdown", "ArrowDown"),
   ("arrowleft", "ArrowLeft"), ("arrowright", "ArrowRight"), ("home", "Home"), ("end", "End"),
   ("pageup", "PageUp"), ("pagedown", "PageDown"), ("shift", "Shift"), ("ctrl", "Control"),
   ("alt", "Alt"), ("cmd", "Meta"), ("win", "Meta"), ("super", "Meta"), ("option", "Alt")]

/-- Python `dict.get(k, default=None)`: first binding of `k` in the
association list, `none` if absent. -/
def dictGet {α β : Type} [DecidableEq α] : List (α × β) → α → Option β
  | [], _ => none
  | (a, b) :: rest, k => if k = a then some b else dictGet rest k

/-- Python `str.lower()` restricted to ASCII case folding (the key vocabulary
of the source is ASCII-only). -/
def pyLower (s : String) : String := ⟨s.data.map Char.toLower⟩

/-- `CUA_KEY_TO_PLAYWRIGHT_KEY.get(k.lower(), k)` — the per-key translation
performed inside `AsyncPlaywrightBrowser.keypress` (line 123). -/
def translateKey (k : String) : String :=
  (dictGet CUA_KEY_TO_PLAYWRIGHT_KEY (pyLower k)).getD k

/-! ## Actions and page-level primitives -/

/-- The tagged action variant: one constructor per method of
`AsyncPlaywrightBrowser` that the agent loop can dispatch to by verb name
(lines 96-139); `typeText` embeds the method named `type` in the source.
The loop dispatches with `getattr(browser, action_type)` (line 188), so a
verb is only rejected when it is *not an attribute* of the wrapper:
`unknown` embeds exactly those verbs (`getattr` raises `AttributeError`).
A verb that names a wrapper coroutine method that is not a supported action
verb is found by `getattr` and executed like any action: `screenshotVerb`
embeds that case for the zero-argument method `screenshot` (lines 92-94).
Verbs naming the wrapper's non-coroutine attributes (e.g. `get_dimensions`,
`width`) are outside the modeled action surface: in the source `getattr`
still finds them and the failure, if any, is a `TypeError` at the call or
the `await` — never an `AttributeError`. -/
inductive Action : Type
  | click (x y : Int) (button : String)
  | double_click (x y : Int)
  | scroll (x y scroll_x scroll_y : Int)
  | typeText (text : String)
  | wait (ms : Nat)
  | move (x y : Int)
  | keypress (keys : List String)
  | drag (path : List (Int × Int))
  | goto (url : String)
  | screenshotVerb
  | unknown (verb : String)
deriving DecidableEq, Repr

/-- The Playwright page/mouse/keyboard primitives the wrapper methods invoke. -/
inductive Primitive : Type
  | goBack
  | goForward
  | mouseWheel (x y : Int)
  | mouseClick (x y : Int) (button : String)
  | mouseDblClick (x y : Int)
  | mouseMove (x y : Int)
  | evalScrollBy (sx sy : Int)
  | kbdType (text : String)
  | sleep (ms : Nat)
  | keyDown (k : String)
  | keyUp (k : String)
  | mouseDown
  | mouseUp
  | navigate (url : String)
  | takeScreenshot
deriving DecidableEq, Repr

/-- `AsyncPlaywrightBrowser.click` (lines 96-104): `"back"`/`"forward"` route
to history navigation, `"wheel"` to a wheel event, anything else is a mouse
click whose button falls back to `"left"` unless it is `"left"` or `"right"`. -/
def click (x y : Int) (button : String) : List Primitive :=
  if button = "back" then [Primitive.goBack]
  else if button = "forward" then [Primitive.goForward]
  else if button = "wheel" then [Primitive.mouseWheel x y]
  else [Primitive.mouseClick x y (if button = "left" ∨ button = "right" then button else "left")]

/-- `AsyncPlaywrightBrowser.keypress` (lines 122-127): translate every key,
press them down in list order, release them in reverse order. -/
def keypress (keys : List String) : List Primitive :=
  let mapped := keys.map translateKey
  mapped.map Primitive.keyDown ++ mapped.reverse.map Primitive.keyUp

/-- `AsyncPlaywrightBrowser.drag` (lines 129-136): empty path is a no-op;
otherwise move to the first point, press, move through the rest, release. -/
def drag (path : List (Int × Int)) : List Primitive :=
  match path with
  | [] => []
  | p :: rest =>
      [Primitive.mouseMove p.1 p.2, Primitive.mouseDown]
        ++ rest.map (fun q => Primitive.mouseMove q.1 q.2) ++ [Primitive.mouseUp]

/-- Page primitives invoked by each wrapper method (lines 96-139). -/
def primitivesOf : Action → List Primitive
  | .click x y b => click x y b
  | .double_click x y => [Primitive.mouseDblClick x y]
  | .scroll x y sx sy => [Primitive.mouseMove x y, Primitive.evalScrollBy sx sy]
  | .typeText t => [Primitive.kbdType t]
  | .wait ms => [Primitive.sleep ms]
  | .move x y => [Primitive.mouseMove x y]
  | .keypress ks => keypress ks
  | .drag p => drag p
  | .goto u => [Primitive.navigate u]
  | .screenshotVerb => [Primitive.takeScreenshot]
  | .unknown _ => []

/-- Whether executing the action touches `self._page` (a closed page makes the
underlying Playwright call raise).  `wait` only sleeps (line 117), a drag
with an empty path returns before touching the page (lines 130-131), and a
keypress with an empty key list runs both of its loops zero times
(lines 122-127), so none of those reach the page. -/
def touchesPage : Action → Bool
  | .wait _ => false
  | .drag p => !p.isEmpty
  | .keypress ks => !ks.isEmpty
  | _ => true

/-! ## Errors -/

/-- The exceptions that can surface from the embedded code paths.
`noActivePage` — Modelled from the spec: `NoActivePageError` (§7); no code
under `src/` defines or raises such an error, the constructor exists only so
the error the spec expects can be compared with the error the code produces. -/
inductive PyError : Type
  | attributeError (verb : String)
  | targetClosed
  | openAIAPIError
  | noActivePage
deriving DecidableEq, Repr

/-! ## Browser driver state (`AsyncPlaywrightBrowser`, lines 44-139) -/

/-- State of the `AsyncPlaywrightBrowser` wrapper.  Pages are identified by
creation order (`nextId` counts creations); `pages` is the browser context's
list of open pages in creation order (`self._browser.contexts[0].pages`);
`current` is the page id held by `self._page` — which may refer to a page no
longer in `pages` (a stale handle to a closed page); `urls` maps page id to
its current URL; `closed` records whether the browser process was closed. -/
structure BrowserState : Type where
  pages : List Nat
  urls : List (Nat × String)
  current : Nat
  nextId : Nat
  closed : Bool
deriving DecidableEq, Repr

/-- Browser state after `__aenter__` (lines 55-70): one open page. -/
def initialBrowser : BrowserState :=
  { pages := [0], urls := [(0, "about:blank")], current := 0, nextId := 1, closed := false }

/-- `_handle_page_close` (lines 82-84): if the closed page is the current one
and the context still has open pages, retarget `self._page` to the last
(most recently created) open page; otherwise leave the handle alone. -/
def handlePageClose (st : BrowserState) (page : Nat) : BrowserState :=
  if st.current = page ∧ st.pages ≠ [] then { st with current := st.pages.getLastD 0 }
  else st

/-- A page closing: Playwright removes it from the context's page list and
then fires the `close` event handler. -/
def closePage (st : BrowserState) (page : Nat) : BrowserState :=
  handlePageClose { st with pages := st.pages.erase page } page

/-- `_handle_new_page` (lines 78-80): `self._page` is pointed at the new page. -/
def handleNewPage (st : BrowserState) (page : Nat) : BrowserState :=
  { st with current := page }

/-- A new page appearing in the context: appended to the page list, then the
`page` event handler runs. -/
def newPage (st : BrowserState) (url : String) : BrowserState :=
  let pid := st.nextId
  handleNewPage
    { st with pages := st.pages ++ [pid], urls := st.urls ++ [(pid, url)], nextId := pid + 1 }
    pid

/-- `get_current_url` (lines 89-90): `self._page.url`, which Playwright
answers even for a closed page (last known URL). -/
def currentUrl (st : BrowserState) : String :=
  (dictGet st.urls st.current).getD ""

/-- `screenshot` (lines 92-94): a viewport screenshot of `self._page`,
represented by the page's id (the image bytes are opaque to the loop);
raises Playwright's target-closed error when the handle refers to a closed
page. -/
def screenshot (st : BrowserState) : Except PyError Nat :=
  if st.pages.contains st.current then Except.ok st.current
  else Except.error PyError.targetClosed

/-- The spec's `capture()` (§4.1): screenshot plus current URL, exactly the
pair of calls the loop performs at lines 192 and 200. -/
def capture (st : BrowserState) : Except PyError (Nat × String) :=
  match screenshot st with
  | Except.error e => Except.error e
  | Except.ok img => Except.ok (img, currentUrl st)

/-- Effect of a successfully executed action on the driver state: only
`goto` changes anything the model tracks (the current page's URL). -/
def applyAction (st : BrowserState) : Action → BrowserState
  | .goto u =>
      { st with urls := st.urls.map (fun q => if q.1 = st.current then (q.1, u) else q) }
  | _ => st

/-- Dispatch of one action against the driver, as the loop performs it at
lines 188-189: `getattr(browser, action_type)` raises `AttributeError` only
for a verb that is not an attribute of the wrapper; a verb naming a wrapper
coroutine method — the supported action methods, and `screenshot` — is
dispatched to that method: a page-touching method raises Playwright's
target-closed error when `self._page` refers to a closed page; otherwise the
method runs its page primitives and succeeds. -/
def execute (st : BrowserState) (a : Action) : Except PyError (BrowserState × List Primitive) :=
  match a with
  | .unknown v => Except.error (PyError.attributeError v)
  | a =>
      if touchesPage a && !(st.pages.contains st.current) then Except.error PyError.targetClosed
      else Except.ok (applyAction st a, primitivesOf a)

/-! ## Transcript items and the gateway oracle -/

/-- One transcript item of the `items` list in `run_browser_task`:
the seeding user message (line 158), a planner `message` output item (which
carries `"role": "assistant"`), a `computer_call` action request, the
`computer_call_output` observation the loop appends (lines 193-203), or any
other output item type, which the loop appends but does not process. -/
inductive Item : Type
  | userInput (content : String)
  | message (text : String)
  | computerCall (callId : String) (action : Action) (pendingSafetyChecks : List String)
  | computerCallOutput (callId : String) (image : Nat) (currentUrl : String)
      (acks : List String)
  | otherItem
deriving DecidableEq, Repr

/-- `item.get("role")`. -/
def role : Item → Option String
  | .userInput _ => some "user"
  | .message _ => some "assistant"
  | _ => none

/-- `items[-1].get("role") == "assistant"` (line 206). -/
def lastIsAssistant (items : List Item) : Bool :=
  match items.getLast? with
  | some i => role i == some "assistant"
  | none => false

def isCall : Item → Bool
  | .computerCall _ _ _ => true
  | _ => false

def isOutput : Item → Bool
  | .computerCallOutput _ _ _ _ => true
  | _ => false

/-- Number of `action-request` (`computer_call`) items in a transcript. -/
def countCalls (l : List Item) : Nat := (l.filter isCall).length

/-- Number of `action-result` (`computer_call_output`) items in a transcript. -/
def countOutputs (l : List Item) : Nat := (l.filter isOutput).length

/-- Result of one `create_response` call (lines 30-41 and 170-172):
a non-2xx response makes `create_response` raise; a JSON body without an
`"output"` key makes the loop log an error and break; otherwise the loop
receives the list of output items. -/
inductive GwResponse : Type
  | apiError
  | noOutput
  | ok (output : List Item)
deriving DecidableEq, Repr

/-- Log line for a `computer_call` (line 185); the Python repr of the
argument dict is abstracted to the verb name. -/
def actionLogLine (a : Action) : String :=
  match a with
  | .click _ _ _ => "Action: click"
  | .double_click _ _ => "Action: double_click"
  | .scroll _ _ _ _ => "Action: scroll"
  | .typeText _ => "Action: type"
  | .wait _ => "Action: wait"
  | .move _ _ => "Action: move"
  | .keypress _ => "Action: keypress"
  | .drag _ => "Action: drag"
  | .goto _ => "Action: goto"
  | .screenshotVerb => "Action: screenshot"
  | .unknown v => s!"Action: {v}"

/-! ## The agent loop (`run_browser_task`, lines 142-212) -/

/-- Outcome of processing the items of one gateway batch (the `for` loop at
lines 176-203): either all items processed, or a raised exception; both carry
the browser state, log, and transcript at that point (on an exception the
transcript already contains the whole batch — `items += response["output"]`
ran at line 174 — plus the outputs of the calls executed before the failure). -/
inductive ProcResult : Type
  | ok (b : BrowserState) (log : List String) (items : List Item)
  | err (e : PyError) (b : BrowserState) (log : List String) (items : List Item)
deriving DecidableEq, Repr

/-- The `for item in response["output"]` body (lines 176-203): a `message`
item is logged; a `computer_call` is logged, executed, followed by a
screenshot, and its `computer_call_output` appended; other item types are
skipped. -/
def processItems (b : BrowserState) (log : List String) (items : List Item) :
    List Item → ProcResult
  | [] => ProcResult.ok b log items
  | i :: rest =>
    match i with
    | .message text => processItems b (log ++ [s!"Agent: {text}"]) items rest
    | .computerCall cid a checks =>
        let log1 := log ++ [actionLogLine a]
        match execute b a with
        | Except.error e => ProcResult.err e b log1 items
        | Except.ok (b1, _) =>
          match screenshot b1 with
          | Except.error e => ProcResult.err e b1 log1 items
          | Except.ok img =>
              processItems b1 log1
                (items ++ [Item.computerCallOutput cid img (currentUrl b1) checks]) rest
    | _ => processItems b log items rest

/-- How a run's stepping phase ended: a final assistant item at the end of
the transcript (`break` at line 207), the `while step < max_steps` condition
failing (budget exhausted), the missing-`"output"` break (lines 170-172), or
an exception raised while stepping. -/
inductive Term : Type
  | finished
  | abortedBudget
  | noOutput
  | err (e : PyError)
deriving DecidableEq, Repr

/-- Result of the stepping loop. -/
structure LoopOut : Type where
  b : BrowserState
  log : List String
  items : List Item
  term : Term
  calls : Nat
deriving DecidableEq, Repr

/-- The `while step < max_steps` loop (lines 161-207), with `remaining` the
number of loop iterations the budget still allows (`max_steps - step`) and
`step` the number of iterations already run.  `gw n` is the response to the
n-th `create_response` call; `calls` counts the gateway calls made. -/
def runSteps (gw : Nat → GwResponse) (step : Nat) (remaining : Nat) (b : BrowserState)
    (log : List String) (items : List Item) : LoopOut :=
  match remaining with
  | 0 => ⟨b, log, items, Term.abortedBudget, 0⟩
  | r + 1 =>
    match gw (step + 1) with
    | GwResponse.apiError => ⟨b, log, items, Term.err PyError.openAIAPIError, 1⟩
    | GwResponse.noOutput =>
        ⟨b, log ++ ["Error: No output from model"], items, Term.noOutput, 1⟩
    | GwResponse.ok out =>
        let items1 := items ++ out
        match processItems b log items1 out with
        | ProcResult.err e b1 log1 items2 => ⟨b1, log1, items2, Term.err e, 1⟩
        | ProcResult.ok b1 log1 items2 =>
            if lastIsAssistant items2 then ⟨b1, log1, items2, Term.finished, 1⟩
            else
              let rest := runSteps gw (step + 1) r b1 log1 items2
              ⟨rest.b, rest.log, rest.items, rest.term, rest.calls + 1⟩

/-- `__aexit__` (lines 72-76): the browser process is closed and Playwright
stopped; the `async with` statement runs it on every exit path of the block. -/
def closeBrowser (b : BrowserState) : BrowserState := { b with closed := true }

/-- Everything observable about one run: `outcome` is what the Python call
returns (the joined log) or raises; the remaining fields expose the final
log lines, transcript, termination kind, gateway call count and driver state
for the stated properties. -/
structure RunResult : Type where
  outcome : Except PyError String
  log : List String
  items : List Item
  term : Term
  gatewayCalls : Nat
  finalBrowser : BrowserState
deriving Repr

/-- `run_browser_task` (lines 142-212): navigate to the start URL, seed the
transcript with the task, run the stepping loop, and on a non-exception exit
append the `Final URL` line and return the joined log; an exception
propagates to the caller.  In both cases the `async with` block closes the
browser on the way out. -/
def runBrowserTask (gw : Nat → GwResponse) (task startUrl : String) (maxSteps : Nat) :
    RunResult :=
  let b1 := applyAction initialBrowser (Action.goto startUrl)
  let log0 := [s!"Navigated to {startUrl}"]
  let items0 := [Item.userInput task]
  let lo := runSteps gw 0 maxSteps b1 log0 items0
  match lo.term with
  | Term.err e =>
      { outcome := Except.error e, log := lo.log, items := lo.items, term := lo.term,
        gatewayCalls := lo.calls, finalBrowser := closeBrowser lo.b }
  | _ =>
      let u := currentUrl lo.b
      let log1 := lo.log ++ [s!"Final URL: {u}"]
      { outcome := Except.ok (String.intercalate "\n" log1), log := log1, items := lo.items,
        term := lo.term, gatewayCalls := lo.calls, finalBrowser := closeBrowser lo.b }

/-! ## Helper lemmas -/

theorem getLastD_mem {l : List Nat} (d : Nat) (h : l ≠ []) : l.getLastD d ∈ l := by
  induction l generalizing d with
  | nil => exact absurd rfl h
  | cons a t ih =>
    rw [List.getLastD_cons]
    cases t with
    | nil => simp [List.getLastD]
    | cons x xs => exact List.mem_cons_of_mem _ (ih _ (by simp))

theorem le_getLastD_of_pairwise {l : List Nat} (d : Nat) (hp : l.Pairwise (· < ·))
    {x : Nat} (hx : x ∈ l) : x ≤ l.getLastD d := by
  induction l generalizing d with
  | nil => simp at hx
  | cons a t ih =>
    rw [List.getLastD_cons]
    have hp' : t.Pairwise (· < ·) :=
      List.Pairwise.sublist (List.sublist_cons_self a t) hp
    rcases List.mem_cons.1 hx with rfl | hxt
    · cases t with
      | nil => simp [List.getLastD]
      | cons y ys =>
        have hmem : (y :: ys).getLastD x ∈ y :: ys := getLastD_mem x (by simp)
        exact le_of_lt ((List.pairwise_cons.1 hp).1 _ hmem)
    · exact ih a hp' hxt

theorem dictGet_mem {α β : Type} [DecidableEq α] {d : List (α × β)} {k : α} {v : β}
    (h : dictGet d k = some v) : (k, v) ∈ d := by
  induction d with
  | nil => simp [dictGet] at h
  | cons p rest ih =>
    obtain ⟨a, b⟩ := p
    by_cases hk : k = a
    · subst hk
      simp only [dictGet, if_true, eq_self_iff_true, Option.some.injEq] at h
      subst h
      exact List.mem_cons_self _ _
    · simp only [dictGet, if_neg hk] at h
      exact List.mem_cons_of_mem _ (ih h)

theorem dictGet_append_last {α β : Type} [DecidableEq α] {d : List (α × β)} {k : α} (v : β)
    (h : ∀ q ∈ d, q.1 ≠ k) : dictGet (d ++ [(k, v)]) k = some v := by
  induction d with
  | nil => simp [dictGet]
  | cons p rest ih =>
    have hne : k ≠ p.1 := fun he => h p (List.mem_cons_self _ _) he.symm
    simpa [dictGet, hne] using ih (fun q hq => h q (List.mem_cons_of_mem _ hq))

theorem countCalls_append (a b : List Item) :
    countCalls (a ++ b) = countCalls a + countCalls b := by
  simp [countCalls, List.filter_append]

theorem countOutputs_append (a b : List Item) :
    countOutputs (a ++ b) = countOutputs a + countOutputs b := by
  simp [countOutputs, List.filter_append]

theorem applyAction_pages (b : BrowserState) (a : Action) :
    (applyAction b a).pages = b.pages := by
  cases a <;> rfl

theorem applyAction_current (b : BrowserState) (a : Action) :
    (applyAction b a).current = b.current := by
  cases a <;> rfl

/-- With the current page open and a known verb, `execute` succeeds and
returns the updated state and the method's page primitives. -/
theorem execute_ok (b : BrowserState) (a : Action)
    (hc : b.pages.contains b.current = true) (hu : ∀ v, a ≠ Action.unknown v) :
    execute b a = Except.ok (applyAction b a, primitivesOf a) := by
  have hmem : b.current ∈ b.pages := List.elem_iff.1 hc
  unfold execute
  split
  · next v => exact absurd rfl (hu v)
  · simp [hmem]

/-- Processing a batch whose action requests all use known verbs, starting
from a state whose current page is open, succeeds; the browser keeps its page
list and current page, no `computer_call` item is added, and exactly one
`computer_call_output` item is appended per `computer_call` of the batch.
When the batch has at least one call the transcript now ends with an output
item; when it has none the transcript is untouched. -/
theorem processItems_ok :
    ∀ (out : List Item) (b : BrowserState) (log : List String) (items : List Item),
    b.pages.contains b.current = true →
    (∀ cid a ch, Item.computerCall cid a ch ∈ out → ∀ v, a ≠ Action.unknown v) →
    ∃ b' log' items',
      processItems b log items out = ProcResult.ok b' log' items' ∧
      b'.pages = b.pages ∧ b'.current = b.current ∧
      countCalls items' = countCalls items ∧
      countOutputs items' = countOutputs items + countCalls out ∧
      (countCalls out = 0 → items' = items) ∧
      (0 < countCalls out → ∃ i, items'.getLast? = some i ∧ isOutput i = true) := by
  intro out
  induction out with
  | nil =>
    intro b log items hc _
    exact ⟨b, log, items, rfl, rfl, rfl, rfl, by simp [countCalls], fun _ => rfl,
      fun h => absurd h (by simp [countCalls])⟩
  | cons i rest ih =>
    intro b log items hc hu
    have hurest : ∀ cid a ch, Item.computerCall cid a ch ∈ rest → ∀ v, a ≠ Action.unknown v :=
      fun cid a ch hm v => hu cid a ch (List.mem_cons_of_mem _ hm) v
    cases i with
    | userInput s =>
      simp only [processItems]
      have hcc : countCalls (Item.userInput s :: rest) = countCalls rest := by
        simp [countCalls, List.filter_cons, isCall]
      rw [hcc]
      exact ih b log items hc hurest
    | message t =>
      simp only [processItems]
      have hcc : countCalls (Item.message t :: rest) = countCalls rest := by
        simp [countCalls, List.filter_cons, isCall]
      rw [hcc]
      exact ih b (log ++ [s!"Agent: {t}"]) items hc hurest
    | otherItem =>
      simp only [processItems]
      have hcc : countCalls (Item.otherItem :: rest) = countCalls rest := by
        simp [countCalls, List.filter_cons, isCall]
      rw [hcc]
      exact ih b log items hc hurest
    | computerCallOutput cid img u acks =>
      simp only [processItems]
      have hcc : countCalls (Item.computerCallOutput cid img u acks :: rest)
          = countCalls rest := by
        simp [countCalls, List.filter_cons, isCall]
      rw [hcc]
      exact ih b log items hc hurest
    | computerCall cid a checks =>
      have hu0 : ∀ v, a ≠ Action.unknown v :=
        fun v => hu cid a checks (List.mem_cons_self _ _) v
      have hex := execute_ok b a hc hu0
      have hpg := applyAction_pages b a
      have hcur := applyAction_current b a
      have hc1 : (applyAction b a).pages.contains (applyAction b a).current = true := by
        rw [hpg, hcur]; exact hc
      have hmem1 : (applyAction b a).current ∈ (applyAction b a).pages :=
        List.elem_iff.1 hc1
      have hshot : screenshot (applyAction b a) = Except.ok (applyAction b a).current := by
        simp [screenshot, hmem1]
      obtain ⟨b', log', items', heq, hbp, hbc, hcalls, houts, hnone, hlast⟩ :=
        ih (applyAction b a) (log ++ [actionLogLine a])
          (items ++ [Item.computerCallOutput cid (applyAction b a).current
            (currentUrl (applyAction b a)) checks]) hc1 hurest
      have hccc : countCalls (Item.computerCall cid a checks :: rest)
          = countCalls rest + 1 := by
        simp [countCalls, List.filter_cons, isCall, Nat.add_comm]
      refine ⟨b', log', items', ?_, ?_, ?_, ?_, ?_, ?_, ?_⟩
      · simp only [processItems, hex, hshot]
        exact heq
      · rw [hbp, hpg]
      · rw [hbc, hcur]
      · rw [hcalls, countCalls_append]
        simp [countCalls, isCall]
      · rw [houts, countOutputs_append, hccc]
        simp only [countOutputs, List.filter, isOutput, List.length]
        omega
      · intro h0
        rw [hccc] at h0
        exact absurd h0 (by omega)
      · intro _
        rcases Nat.eq_zero_or_pos (countCalls rest) with h0 | hpos
        · refine ⟨Item.computerCallOutput cid (applyAction b a).current
            (currentUrl (applyAction b a)) checks, ?_, rfl⟩
          rw [hnone h0]
          exact List.getLast?_concat _
        · exact hlast hpos

/-- Processing a concatenated batch is processing the first part and, if
that did not raise, continuing with the second from the reached state. -/
theorem processItems_append (xs ys : List Item) :
    ∀ (b : BrowserState) (log : List String) (items : List Item),
    processItems b log items (xs ++ ys) =
      match processItems b log items xs with
      | ProcResult.ok b' log' items' => processItems b' log' items' ys
      | ProcResult.err e b' log' items' => ProcResult.err e b' log' items' := by
  induction xs with
  | nil => intro b log items; rfl
  | cons i rest ih =>
    intro b log items
    cases i with
    | userInput s =>
      simp only [List.cons_append, processItems]
      exact ih b log items
    | message t =>
      simp only [List.cons_append, processItems]
      exact ih b (log ++ [s!"Agent: {t}"]) items
    | otherItem =>
      simp only [List.cons_append, processItems]
      exact ih b log items
    | computerCallOutput cid img u acks =>
      simp only [List.cons_append, processItems]
      exact ih b log items
    | computerCall cid a checks =>
      simp only [List.cons_append, processItems]
      cases hex : execute b a with
      | error e => rfl
      | ok pair =>
        obtain ⟨b1, prims⟩ := pair
        have hgen : ∀ (res : Except PyError Nat),
            (match res with
             | Except.error e => ProcResult.err e b1 (log ++ [actionLogLine a]) items
             | Except.ok img =>
                 processItems b1 (log ++ [actionLogLine a])
                   (items ++ [Item.computerCallOutput cid img (currentUrl b1) checks])
                   (rest ++ ys))
            = match (match res with
                | Except.error e => ProcResult.err e b1 (log ++ [actionLogLine a]) items
                | Except.ok img =>
                    processItems b1 (log ++ [actionLogLine a])
                      (items ++ [Item.computerCallOutput cid img (currentUrl b1) checks])
                      rest) with
              | ProcResult.ok b' log' items' => processItems b' log' items' ys
              | ProcResult.err e b' log' items' => ProcResult.err e b' log' items' := by
          intro res
          cases res with
          | error e => rfl
          | ok img =>
            exact ih b1 (log ++ [actionLogLine a])
              (items ++ [Item.computerCallOutput cid img (currentUrl b1) checks])
        exact hgen (screenshot b1)

theorem lastIsAssistant_append {out : List Item} (items : List Item) (h : out ≠ []) :
    lastIsAssistant (items ++ out) = lastIsAssistant out := by
  unfold lastIsAssistant
  rw [List.getLast?_append]
  cases hout : out.getLast? with
  | none => exact absurd (List.getLast?_eq_none_iff.1 hout) h
  | some i => rfl

theorem isOutput_role {i : Item} (h : isOutput i = true) : role i = none := by
  cases i <;> simp_all [isOutput, role]

/-- Loop invariant for C2: starting balanced (as many output items as call
items) and with the current page open, if the gateway only ever sends batches
made of known-verb requests and non-output items, the transcript stays
balanced to the end of the run. -/
theorem runSteps_counts (gw : Nat → GwResponse)
    (hgw : ∀ s out, gw s = GwResponse.ok out →
      (∀ i ∈ out, isOutput i = false) ∧
      (∀ cid a ch, Item.computerCall cid a ch ∈ out → ∀ v, a ≠ Action.unknown v)) :
    ∀ (remaining step : Nat) (b : BrowserState) (log : List String) (items : List Item),
    b.pages.contains b.current = true →
    countOutputs items = countCalls items →
    countOutputs (runSteps gw step remaining b log items).items
      = countCalls (runSteps gw step remaining b log items).items := by
  intro remaining
  induction remaining with
  | zero => intro step b log items _ hbal; exact hbal
  | succ r ih =>
    intro step b log items hc hbal
    cases hg : gw (step + 1) with
    | apiError => simp only [runSteps, hg]; exact hbal
    | noOutput => simp only [runSteps, hg]; exact hbal
    | ok out =>
      simp only [runSteps, hg]
      obtain ⟨hno, hknown⟩ := hgw (step + 1) out hg
      obtain ⟨b', log', items', heq, hbp, hbc, hcalls, houts, _, _⟩ :=
        processItems_ok out b log (items ++ out) hc hknown
      rw [heq]
      have houtz : countOutputs out = 0 := by
        simp only [countOutputs, List.length_eq_zero]
        exact List.filter_eq_nil_iff.2 (by intro i hi; simp [hno i hi])
      have hbal' : countOutputs items' = countCalls items' := by
        rw [hcalls, houts, countCalls_append, countOutputs_append, houtz, hbal]
        omega
      have hc' : b'.pages.contains b'.current = true := by rw [hbp, hbc]; exact hc
      by_cases hla : lastIsAssistant items' = true
      · simp only [hla, if_true]
        exact hbal'
      · simp only [Bool.not_eq_true] at hla
        simp only [hla, Bool.false_eq_true, if_false]
        exact ih (step + 1) b' log' items' hc' hbal'

/-- Loop invariant for C3: if the gateway always answers with a batch of
known-verb requests that never leaves an assistant message last (either the
batch contains an action request — whose result will be appended after it —
or its last item does not carry the assistant role), then the loop runs the
whole budget and makes exactly one gateway call per allowed iteration. -/
theorem runSteps_never_final (gw : Nat → GwResponse)
    (hgw : ∀ s, ∃ out, gw s = GwResponse.ok out ∧
      (∀ cid a ch, Item.computerCall cid a ch ∈ out → ∀ v, a ≠ Action.unknown v) ∧
      (0 < countCalls out ∨ ∀ i, out.getLast? = some i → role i ≠ some "assistant")) :
    ∀ (remaining step : Nat) (b : BrowserState) (log : List String) (items : List Item),
    b.pages.contains b.current = true →
    lastIsAssistant items = false →
    (runSteps gw step remaining b log items).term = Term.abortedBudget ∧
    (runSteps gw step remaining b log items).calls = remaining := by
  intro remaining
  induction remaining with
  | zero => intro step b log items _ _; exact ⟨rfl, rfl⟩
  | succ r ih =>
    intro step b log items hc hla
    obtain ⟨out, hg, hknown, hnf⟩ := hgw (step + 1)
    simp only [runSteps, hg]
    obtain ⟨b', log', items', heq, hbp, hbc, hcalls, houts, hnone, hlast⟩ :=
      processItems_ok out b log (items ++ out) hc hknown
    rw [heq]
    have hc' : b'.pages.contains b'.current = true := by rw [hbp, hbc]; exact hc
    have hla' : lastIsAssistant items' = false := by
      rcases Nat.eq_zero_or_pos (countCalls out) with h0 | hpos
      · rw [hnone h0]
        cases hout : out.getLast? with
        | none =>
          have : out = [] := List.getLast?_eq_none_iff.1 hout
          subst this
          simpa using hla
        | some i =>
          have hne : out ≠ [] := by
            intro he; subst he; simp at hout
          rw [lastIsAssistant_append items hne]
          have hrole : role i ≠ some "assistant" := by
            rcases hnf with hcall | hlastrole
            · exact absurd h0 (by omega)
            · exact hlastrole i hout
          unfold lastIsAssistant
          rw [hout]
          simpa [beq_eq_false_iff_ne] using hrole
      · obtain ⟨i, hgl, hio⟩ := hlast hpos
        unfold lastIsAssistant
        rw [hgl]
        simp [isOutput_role hio]
    simp only [hla', Bool.false_eq_true, if_false]
    obtain ⟨ht, hcnt⟩ := ih (step + 1) b' log' items' hc' hla'
    exact ⟨ht, by rw [hcnt]⟩

/-! ## Driver-level claims -/

/-- Concrete one-page driver state used as the instance for the
page-lifecycle properties. -/
def onePageBrowser : BrowserState :=
  { pages := [0], urls := [(0, "https://example.com/")], current := 0, nextId := 1,
    closed := false }

/-- Concrete two-page driver state (page 0 active, page 1 created later). -/
def twoPageBrowser : BrowserState :=
  { pages := [0, 1], urls := [(0, "https://a.example/"), (1, "https://b.example/")],
    current := 0, nextId := 2, closed := false }

/-- C5, counterexample.  When the only page closes, the next `capture` fails
with Playwright's target-closed error raised through the stale page handle —
not with a `NoActivePageError`, which no code in the repository defines or
raises: the claim names an error the code cannot produce. -/
theorem all_pages_closed_error_is_target_closed :
    capture (closePage onePageBrowser 0) = Except.error PyError.targetClosed ∧
    capture (closePage onePageBrowser 0) ≠ Except.error PyError.noActivePage := by
  constructor
  · rfl
  · intro h
    exact absurd (Except.error.inj h) (by decide)

/-- C5, amended.  If the active page closes and zero pages remain, the handle
keeps pointing at the closed page, and every subsequent `capture`, and every
`execute` of a known page-touching action, fails with the target-closed
error, until a new page appears — the new-page callback retargets the handle
and `capture` succeeds again, returning the new page's data.  (`wait`, a
drag with an empty path, and a keypress with an empty key list never reach
the page and so do not fail; see `touchesPage`.) -/
theorem all_pages_closed_calls_fail (st : BrowserState)
    (hz : st.pages.erase st.current = [])
    (hkeys : ∀ q ∈ st.urls, q.1 < st.nextId) :
    capture (closePage st st.current) = Except.error PyError.targetClosed ∧
    (∀ a, touchesPage a = true → (∀ v, a ≠ Action.unknown v) →
      execute (closePage st st.current) a = Except.error PyError.targetClosed) ∧
    (∀ u, capture (newPage (closePage st st.current) u) = Except.ok (st.nextId, u)) := by
  have hshape : closePage st st.current = { st with pages := [] } := by
    unfold closePage handlePageClose
    rw [hz]
    simp
  refine ⟨?_, ?_, ?_⟩
  · rw [hshape]
    rfl
  · intro a hta hua
    rw [hshape]
    unfold execute
    split
    · next v => exact absurd rfl (hua v)
    · rw [if_pos]
      rw [hta]
      rfl
  · intro u
    rw [hshape]
    unfold newPage handleNewPage capture screenshot currentUrl
    simp only []
    rw [if_pos (by simp)]
    have hget : dictGet (st.urls ++ [(st.nextId, u)]) st.nextId = some u :=
      dictGet_append_last u (fun q hq => Nat.ne_of_lt (hkeys q hq))
    simp [hget]

/-- C5, witness for `all_pages_closed_calls_fail` at the one-page state. -/
theorem all_pages_closed_calls_fail_witness :
    capture (closePage onePageBrowser 0) = Except.error PyError.targetClosed ∧
    execute (closePage onePageBrowser 0) (Action.click 3 4 "left")
      = Except.error PyError.targetClosed ∧
    capture (newPage (closePage onePageBrowser 0) "https://new.example/")
      = Except.ok (1, "https://new.example/") := by
  have h := all_pages_closed_calls_fail onePageBrowser (by decide) (by decide)
  exact ⟨h.1, h.2.1 (Action.click 3 4 "left") (by decide) (fun v hv => Action.noConfusion hv),
    h.2.2 _⟩

/-- C6.  If the active page closes while other pages remain, the close
callback retargets the handle to the last entry of the remaining
creation-ordered page list — which, when page ids are increasing, is the
most recently created remaining page — and the next `capture` succeeds,
returning that page's screenshot and URL. -/
theorem retarget_most_recent_page (st : BrowserState)
    (hsorted : st.pages.Pairwise (· < ·))
    (hrem : st.pages.erase st.current ≠ []) :
    (closePage st st.current).current = (st.pages.erase st.current).getLastD 0 ∧
    (∀ q ∈ st.pages.erase st.current, q ≤ (closePage st st.current).current) ∧
    capture (closePage st st.current)
      = Except.ok ((closePage st st.current).current, currentUrl (closePage st st.current)) := by
  have hshape : closePage st st.current
      = { st with pages := st.pages.erase st.current,
                  current := (st.pages.erase st.current).getLastD 0 } := by
    unfold closePage handlePageClose
    rw [if_pos ⟨rfl, hrem⟩]
  have hsorted' : (st.pages.erase st.current).Pairwise (· < ·) :=
    List.Pairwise.sublist (List.erase_sublist _ _) hsorted
  refine ⟨by rw [hshape], ?_, ?_⟩
  · intro q hq
    rw [hshape]
    exact le_getLastD_of_pairwise 0 hsorted' hq
  · rw [hshape]
    unfold capture screenshot
    rw [if_pos]
    exact List.elem_iff.2 (getLastD_mem 0 hrem)

/-- C6, witness at the two-page state: page 0 closes, the driver retargets to
page 1 and `capture` observes page 1. -/
theorem retarget_most_recent_page_witness :
    (closePage twoPageBrowser 0).current = 1 ∧
    capture (closePage twoPageBrowser 0) = Except.ok (1, "https://b.example/") := by
  have h := retarget_most_recent_page twoPageBrowser (by decide) (by decide)
  exact ⟨h.1, h.2.2⟩

/-! ## Translator claims -/

/-- Every value of the mapping translates to itself. -/
theorem cua_values_fixed :
    ∀ v ∈ CUA_KEY_TO_PLAYWRIGHT_KEY.map Prod.snd, translateKey v = v := by decide

/-- C7, counterexample.  `"ENTER"` is not a key of the documented mapping
(its keys are all lowercase), yet it is not returned unchanged: the lookup
lowercases its input first, so `"ENTER"` becomes `"Enter"`. -/
theorem translate_changes_unmapped_uppercase_key :
    translateKey "ENTER" = "Enter" ∧
    "ENTER" ∉ CUA_KEY_TO_PLAYWRIGHT_KEY.map Prod.fst ∧
    "ENTER" ≠ "Enter" := by
  refine ⟨by decide, by decide, by decide⟩

/-- C7, amended.  Key translation is idempotent for every key name, and any
key whose *lowercased* form is not a key of the mapping is returned
unchanged (lookup is case-insensitive on the input). -/
theorem translate_idempotent_lower_passthrough (k : String) :
    translateKey (translateKey k) = translateKey k ∧
    (dictGet CUA_KEY_TO_PLAYWRIGHT_KEY (pyLower k) = none → translateKey k = k) := by
  constructor
  · cases h : dictGet CUA_KEY_TO_PLAYWRIGHT_KEY (pyLower k) with
    | none =>
      have hk : translateKey k = k := by simp [translateKey, h]
      rw [hk]
      exact hk
    | some v =>
      have hk : translateKey k = v := by simp [translateKey, h]
      rw [hk]
      exact cua_values_fixed v (List.mem_map_of_mem Prod.snd (dictGet_mem h))
  · intro h
    simp [translateKey, h]

/-- C7, witness at `"F13"`: unmapped even after lowercasing, so both parts
of `translate_idempotent_lower_passthrough` apply and give pass-through. -/
theorem translate_idempotent_lower_passthrough_witness :
    translateKey (translateKey "F13") = translateKey "F13" ∧ translateKey "F13" = "F13" :=
  ⟨(translate_idempotent_lower_passthrough "F13").1,
   (translate_idempotent_lower_passthrough "F13").2 (by decide)⟩

/-- C9.  A click whose button is none of `left`, `right`, `back`, `forward`,
`wheel` is performed as a left-button mouse click at the given coordinates
(the button argument falls back to `"left"`); the action is neither rejected
nor skipped. -/
theorem unsupported_button_left_click (x y : Int) (button : String)
    (h1 : button ≠ "left") (h2 : button ≠ "right") (h3 : button ≠ "back")
    (h4 : button ≠ "forward") (h5 : button ≠ "wheel") :
    click x y button = [Primitive.mouseClick x y "left"] := by
  simp [click, h1, h2, h3, h4, h5]

/-- C9, witness at `button = "middle"`. -/
theorem unsupported_button_left_click_witness :
    click 3 4 "middle" = [Primitive.mouseClick 3 4 "left"] :=
  unsupported_button_left_click 3 4 "middle" (by decide) (by decide) (by decide)
    (by decide) (by decide)

/-- C10.  `keypress` emits exactly `2 * n` key events for `n` keys: the
translated key at position `i` of the list goes down at event index `i`
(downs in list order) and up at event index `2n - 1 - i` (ups in reverse
order), so for `i < j` key `i` is down strictly before key `j` and released
strictly after it; an empty list emits nothing. -/
theorem keypress_down_order_up_reversed (ks : List String) :
    (keypress ks).length = 2 * ks.length ∧
    keypress [] = ([] : List Primitive) ∧
    ∀ i (h : i < ks.length),
      (keypress ks).get? i
        = some (Primitive.keyDown (translateKey (ks.get ⟨i, h⟩))) ∧
      (keypress ks).get? (2 * ks.length - 1 - i)
        = some (Primitive.keyUp (translateKey (ks.get ⟨i, h⟩))) := by
  refine ⟨?_, rfl, ?_⟩
  · simp [keypress]
    omega
  · intro i h
    have hlen : (ks.map translateKey).length = ks.length := List.length_map _ _
    constructor
    · simp only [keypress]
      rw [List.get?_append (by simpa [hlen] using h)]
      rw [List.get?_map, List.get?_map, List.get?_eq_get h]
      rfl
    · simp only [keypress]
      have hidx : ((ks.map translateKey).map Primitive.keyDown).length
          ≤ 2 * ks.length - 1 - i := by
        simp only [List.length_map]
        omega
      rw [List.get?_append_right hidx]
      have hrev : 2 * ks.length - 1 - i - ((ks.map translateKey).map Primitive.keyDown).length
          = ks.length - 1 - i := by
        simp only [List.length_map]
        omega
      rw [hrev]
      rw [List.get?_map]
      rw [List.get?_reverse (by simpa [hlen] using (by omega : ks.length - 1 - i < ks.length))]
      have hback : (ks.map translateKey).length - 1 - (ks.length - 1 - i) = i := by
        simp [hlen]
        omega
      rw [hback, List.get?_map, List.get?_eq_get h]
      rfl

/-- C10, witness at `["ctrl", "a"]`: Control goes down first (index 0) and
comes up last (index 3). -/
theorem keypress_down_order_up_reversed_witness :
    (keypress ["ctrl", "a"]).get? 0 = some (Primitive.keyDown "Control") ∧
    (keypress ["ctrl", "a"]).get? 3 = some (Primitive.keyUp "Control") := by
  have h := (keypress_down_order_up_reversed ["ctrl", "a"]).2.2 0 (by decide)
  exact ⟨h.1, h.2⟩

/-! ## Loop-level claims -/

/-- Gateway that always answers with the spec's scenario batch: one navigate
action request followed by a final assistant message. -/
def gwScenarioNavigate : Nat → GwResponse := fun _ =>
  GwResponse.ok [Item.computerCall "call-1" (Action.goto "https://example.com/") [],
                 Item.message "Example Domain"]

/-- Gateway that always answers with a single assistant message. -/
def gwOneMessage : Nat → GwResponse := fun _ => GwResponse.ok [Item.message "done"]

/-- Gateway that always answers with a single wait action request. -/
def gwWaitCall : Nat → GwResponse := fun _ =>
  GwResponse.ok [Item.computerCall "c" (Action.wait 1000) []]

/-- Gateway whose batch starts with an unknown-verb request. -/
def gwUnknownVerb : Nat → GwResponse := fun _ =>
  GwResponse.ok [Item.computerCall "c1" (Action.unknown "frobnicate") []]

/-- Gateway whose batch holds a message and a well-formed action request
before an unknown-verb request. -/
def gwMixedBatch : Nat → GwResponse := fun _ =>
  GwResponse.ok [Item.message "working", Item.computerCall "c0" (Action.wait 5) [],
                 Item.computerCall "c1" (Action.unknown "frobnicate") []]

/-- Gateway whose batch requests the verb `screenshot` — not a supported
action verb, but an existing coroutine method of the wrapper. -/
def gwScreenshotVerb : Nat → GwResponse := fun _ =>
  GwResponse.ok [Item.computerCall "s1" Action.screenshotVerb []]

/-- Gateway whose batch has an unknown-verb request followed by a wait
request. -/
def gwOrphanBatch : Nat → GwResponse := fun _ =>
  GwResponse.ok [Item.computerCall "c1" (Action.unknown "frobnicate") [],
                 Item.computerCall "c2" (Action.wait 1000) []]

/-- C1, counterexample to the scenario.  With maxSteps=3 and a first batch of
one navigate action request followed by a final assistant message, the run
does *not* end `Finished` after 1 step: the request's `computer_call_output`
is appended after the message, so the last-item role check never fires and
the run exhausts its budget after 3 gateway calls (the log does contain the
`Final URL` line). -/
theorem scenario_navigate_not_finished_after_one_step :
    (runBrowserTask gwScenarioNavigate "navigate and report title" "https://example.com" 3).term
      = Term.abortedBudget ∧
    (runBrowserTask gwScenarioNavigate "navigate and report title" "https://example.com" 3).gatewayCalls
      = 3 ∧
    (runBrowserTask gwScenarioNavigate "navigate and report title" "https://example.com" 3).log.contains
      "Final URL: https://example.com/" = true := by
  refine ⟨rfl, rfl, by decide⟩

/-- C1, amended.  The general termination check holds as coded: if, after the
whole batch is processed, the most recently appended transcript item carries
the assistant role, the loop stops with `Finished` on that very step.  (A
batch containing any action request ends with that request's output item
instead, so the check cannot fire for the spec's navigate-then-answer
scenario.) -/
theorem termination_check_last_item (gw : Nat → GwResponse) (step r : Nat)
    (b : BrowserState) (log : List String) (items out : List Item)
    (b' : BrowserState) (log' : List String) (items' : List Item)
    (hg : gw (step + 1) = GwResponse.ok out)
    (hp : processItems b log (items ++ out) out = ProcResult.ok b' log' items')
    (hla : lastIsAssistant items' = true) :
    (runSteps gw step (r + 1) b log items).term = Term.finished := by
  simp only [runSteps, hg, hp, hla, if_true]

/-- C1, witness: a batch that is a single assistant message finishes the run
on the first step. -/
theorem termination_check_last_item_witness :
    (runSteps gwOneMessage 0 1 initialBrowser [] [Item.userInput "t"]).term = Term.finished :=
  termination_check_last_item gwOneMessage 0 0 initialBrowser [] [Item.userInput "t"]
    [Item.message "done"] initialBrowser ["Agent: done"]
    [Item.userInput "t", Item.message "done"] rfl (by decide) (by decide)

/-- C2, counterexample.  A batch `[unknown-verb request, wait request]`
raises while executing its first request: the final transcript holds two
`computer_call` items and zero `computer_call_output` items, yet only the
first request caused the termination — the second is orphaned, so the
claimed equality (0 results vs 1 non-causing request) fails. -/
theorem orphaned_request_after_failed_action :
    countCalls (runBrowserTask gwOrphanBatch "t" "https://example.com" 1).items = 2 ∧
    countOutputs (runBrowserTask gwOrphanBatch "t" "https://example.com" 1).items = 0 ∧
    (runBrowserTask gwOrphanBatch "t" "https://example.com" 1).term
      = Term.err (PyError.attributeError "frobnicate") ∧
    countOutputs (runBrowserTask gwOrphanBatch "t" "https://example.com" 1).items
      ≠ countCalls (runBrowserTask gwOrphanBatch "t" "https://example.com" 1).items - 1 := by
  refine ⟨rfl, rfl, rfl, by decide⟩

/-- C2, amended.  In every run whose gateway batches consist of known-verb
requests and non-output items, each executed request gets exactly one result
appended before the next gateway call, and the final transcript has exactly
as many `computer_call_output` items as `computer_call` items. -/
theorem results_match_executed_requests (gw : Nat → GwResponse) (task url : String) (N : Nat)
    (hgw : ∀ s out, gw s = GwResponse.ok out →
      (∀ i ∈ out, isOutput i = false) ∧
      (∀ cid a ch, Item.computerCall cid a ch ∈ out → ∀ v, a ≠ Action.unknown v)) :
    countOutputs (runBrowserTask gw task url N).items
      = countCalls (runBrowserTask gw task url N).items := by
  have hc : (applyAction initialBrowser (Action.goto url)).pages.contains
      (applyAction initialBrowser (Action.goto url)).current = true := by
    rw [applyAction_pages, applyAction_current]
    rfl
  have h := runSteps_counts gw hgw N 0 (applyAction initialBrowser (Action.goto url))
      [s!"Navigated to {url}"] [Item.userInput task] hc rfl
  have hitems : (runBrowserTask gw task url N).items
      = (runSteps gw 0 N (applyAction initialBrowser (Action.goto url))
          [s!"Navigated to {url}"] [Item.userInput task]).items := by
    simp only [runBrowserTask]
    split <;> rfl
  rw [hitems]
  exact h

/-- C2, witness: a gateway that always sends one wait request keeps the
transcript balanced. -/
theorem results_match_executed_requests_witness :
    countOutputs (runBrowserTask gwWaitCall "t" "https://example.com" 2).items
      = countCalls (runBrowserTask gwWaitCall "t" "https://example.com" 2).items :=
  results_match_executed_requests gwWaitCall "t" "https://example.com" 2
    (by
      intro s out h
      replace h : GwResponse.ok [Item.computerCall "c" (Action.wait 1000) []]
          = GwResponse.ok out := h
      injection h with h1
      cases h1
      refine ⟨by decide, ?_⟩
      intro cid a ch hm v
      simp only [List.mem_singleton] at hm
      cases hm
      exact fun hv => Action.noConfusion hv)

/-- C3.  For every budget N, if every gateway answer is a well-formed batch
of known-verb requests that never leaves an assistant message as the last
appended item, the run ends `Aborted` (budget exhausted) after exactly N
gateway calls — in particular, with N = 0 no gateway call is made at all. -/
theorem budget_exhaustion_exact_steps (gw : Nat → GwResponse) (task url : String) (N : Nat)
    (hgw : ∀ s, ∃ out, gw s = GwResponse.ok out ∧
      (∀ cid a ch, Item.computerCall cid a ch ∈ out → ∀ v, a ≠ Action.unknown v) ∧
      (0 < countCalls out ∨ ∀ i, out.getLast? = some i → role i ≠ some "assistant")) :
    (runBrowserTask gw task url N).term = Term.abortedBudget ∧
    (runBrowserTask gw task url N).gatewayCalls = N := by
  have hc : (applyAction initialBrowser (Action.goto url)).pages.contains
      (applyAction initialBrowser (Action.goto url)).current = true := by
    rw [applyAction_pages, applyAction_current]
    rfl
  have h := runSteps_never_final gw hgw N 0 (applyAction initialBrowser (Action.goto url))
      [s!"Navigated to {url}"] [Item.userInput task] hc rfl
  have hterm : (runBrowserTask gw task url N).term
      = (runSteps gw 0 N (applyAction initialBrowser (Action.goto url))
          [s!"Navigated to {url}"] [Item.userInput task]).term := by
    simp only [runBrowserTask]
    split <;> rfl
  have hcalls : (runBrowserTask gw task url N).gatewayCalls
      = (runSteps gw 0 N (applyAction initialBrowser (Action.goto url))
          [s!"Navigated to {url}"] [Item.userInput task]).calls := by
    simp only [runBrowserTask]
    split <;> rfl
  exact ⟨hterm.trans h.1, hcalls.trans h.2⟩

/-- C3, witness: an always-wait-request gateway exhausts a budget of 2 in
exactly 2 calls, and a budget of 0 aborts with no gateway call. -/
theorem budget_exhaustion_exact_steps_witness :
    (runBrowserTask gwWaitCall "t" "https://example.com" 2).term = Term.abortedBudget ∧
    (runBrowserTask gwWaitCall "t" "https://example.com" 2).gatewayCalls = 2 ∧
    (runBrowserTask gwWaitCall "t" "https://example.com" 0).term = Term.abortedBudget ∧
    (runBrowserTask gwWaitCall "t" "https://example.com" 0).gatewayCalls = 0 := by
  have hgw : ∀ s, ∃ out, gwWaitCall s = GwResponse.ok out ∧
      (∀ cid a ch, Item.computerCall cid a ch ∈ out → ∀ v, a ≠ Action.unknown v) ∧
      (0 < countCalls out ∨ ∀ i, out.getLast? = some i → role i ≠ some "assistant") := by
    intro s
    refine ⟨[Item.computerCall "c" (Action.wait 1000) []], rfl, ?_, Or.inl (by decide)⟩
    intro cid a ch hm v
    simp only [List.mem_singleton] at hm
    cases hm
    exact fun hv => Action.noConfusion hv
  have h2 := budget_exhaustion_exact_steps gwWaitCall "t" "https://example.com" 2 hgw
  have h0 := budget_exhaustion_exact_steps gwWaitCall "t" "https://example.com" 0 hgw
  exact ⟨h2.1, h2.2, h0.1, h0.2⟩

/-- C4, counterexample.  With a first batch holding an unknown-verb request,
the run neither records the failure in a returned log nor stops in an
`Aborted` state: `getattr` raises `AttributeError`, the exception propagates
out of `run_browser_task`, and nothing is returned to the caller. -/
theorem unknown_verb_no_log_returned :
    (runBrowserTask gwUnknownVerb "t" "https://example.com" 3).outcome
      = Except.error (PyError.attributeError "frobnicate") ∧
    (runBrowserTask gwUnknownVerb "t" "https://example.com" 3).term
      = Term.err (PyError.attributeError "frobnicate") := by
  exact ⟨rfl, rfl⟩

/-- C4, amended.  A batch containing an action request whose verb is not an
attribute name of the driver wrapper makes the step fail with an
`AttributeError` for that verb, even when messages and well-formed action
requests precede it in the batch; the exception propagates out of the run —
no log is returned and no `Aborted` state is reached — though the browser is
still closed on the way out.  An unsupported verb that names an existing
wrapper coroutine method, such as `screenshot`, is not flagged at all:
`getattr` finds the method, the action is silently executed, its
action-result is appended, and the run continues. -/
theorem unknown_verb_raises_attribute_error (gw : Nat → GwResponse)
    (task url v cid : String) (checks : List String) (pre post : List Item) (N : Nat)
    (hN : 1 ≤ N)
    (hpre : ∀ cid' a ch, Item.computerCall cid' a ch ∈ pre → ∀ w, a ≠ Action.unknown w)
    (hg : gw 1 = GwResponse.ok (pre ++ Item.computerCall cid (Action.unknown v) checks :: post)) :
    (runBrowserTask gw task url N).outcome = Except.error (PyError.attributeError v) ∧
    (runBrowserTask gw task url N).finalBrowser.closed = true ∧
    (∀ (gw2 : Nat → GwResponse) (task2 url2 cid2 : String) (checks2 : List String),
      gw2 1 = GwResponse.ok [Item.computerCall cid2 Action.screenshotVerb checks2] →
      (runBrowserTask gw2 task2 url2 1).term = Term.abortedBudget ∧
      countOutputs (runBrowserTask gw2 task2 url2 1).items = 1) := by
  obtain ⟨r, rfl⟩ : ∃ r, N = r + 1 := ⟨N - 1, by omega⟩
  have hc : (applyAction initialBrowser (Action.goto url)).pages.contains
      (applyAction initialBrowser (Action.goto url)).current = true := by
    rw [applyAction_pages, applyAction_current]
    rfl
  obtain ⟨b', log', items', hpeq, _, _, _, _, _, _⟩ :=
    processItems_ok pre (applyAction initialBrowser (Action.goto url))
      [s!"Navigated to {url}"]
      ([Item.userInput task] ++ (pre ++ Item.computerCall cid (Action.unknown v) checks :: post))
      hc hpre
  have hterm : (runSteps gw 0 (r + 1) (applyAction initialBrowser (Action.goto url))
      [s!"Navigated to {url}"] [Item.userInput task]).term
      = Term.err (PyError.attributeError v) := by
    simp only [runSteps, Nat.zero_add, hg]
    rw [processItems_append, hpeq]
    simp only [processItems, execute]
  refine ⟨?_, ?_, ?_⟩
  · simp only [runBrowserTask]
    rw [hterm]
  · simp only [runBrowserTask]
    split <;> rfl
  · intro gw2 task2 url2 cid2 checks2 hg2
    constructor
    · simp only [runBrowserTask, runSteps, Nat.zero_add, hg2]
      rfl
    · simp only [runBrowserTask, runSteps, Nat.zero_add, hg2]
      rfl

/-- C4, witness: a batch with a message and a wait request before the
unknown verb still raises for that verb, and the screenshot-verb batch runs
silently with its result appended. -/
theorem unknown_verb_raises_attribute_error_witness :
    (runBrowserTask gwMixedBatch "t" "https://example.com" 3).outcome
      = Except.error (PyError.attributeError "frobnicate") ∧
    (runBrowserTask gwMixedBatch "t" "https://example.com" 3).finalBrowser.closed = true ∧
    (runBrowserTask gwScreenshotVerb "t" "https://example.com" 1).term = Term.abortedBudget ∧
    countOutputs (runBrowserTask gwScreenshotVerb "t" "https://example.com" 1).items = 1 := by
  have hpre : ∀ cid' a ch, Item.computerCall cid' a ch
      ∈ [Item.message "working", Item.computerCall "c0" (Action.wait 5) []] →
      ∀ w, a ≠ Action.unknown w := by
    intro cid' a ch hm w
    rcases List.mem_cons.1 hm with h1 | h1
    · exact Item.noConfusion h1
    · rcases List.mem_cons.1 h1 with h2 | h2
      · cases h2
        exact fun hv => Action.noConfusion hv
      · exact absurd h2 (List.not_mem_nil _)
  have h := unknown_verb_raises_attribute_error gwMixedBatch "t" "https://example.com"
    "frobnicate" "c1" []
    [Item.message "working", Item.computerCall "c0" (Action.wait 5) []] [] 3
    (by decide) hpre rfl
  exact ⟨h.1, h.2.1, (h.2.2 gwScreenshotVerb "t" "https://example.com" "s1" [] rfl).1,
    (h.2.2 gwScreenshotVerb "t" "https://example.com" "s1" [] rfl).2⟩

/-- C8.  On every exit path — finished, budget exhausted, malformed gateway
response, or an exception during an action, screenshot or gateway call — the
`async with` block closes the browser before the run returns its log or
propagates the error. -/
theorem teardown_on_every_exit_path (gw : Nat → GwResponse) (task url : String) (N : Nat) :
    (runBrowserTask gw task url N).finalBrowser.closed = true := by
  simp only [runBrowserTask]
  split <;> rfl

end BrowserAgent
